import Mathlib

/-!
Verification of the reconciliation core of the Scaleway terraform provider
(`resource_server.go`, `resource_ip.go`) against its specification.

The Go code is shallowly embedded: each CRUD verb becomes a pure Lean
function from the resource data and an oracle (the post-retry outcomes of
the individual gateway calls the verb issues) to the updated resource
data, the returned error, and the trace of events (lock operations and
gateway calls) the verb emits, in source order.  The `retry` wrapper is
absorbed into the oracle outcomes here and modelled separately as
`withRetry` for the retry-policy claims.
-/

namespace Scaleway

/-- Error type of the SDK: `api.APIError` carries a numeric status code
(the Go code type-asserts `err.(api.APIError)` before inspecting it);
any other error carries no status code. -/
inductive ApiErr where
  | apiError (statusCode : Nat) (apiMessage : String)
  | other (msg : String)
deriving DecidableEq, Repr

/-- Stand-in for the Go `error.Error()` string of an SDK error, used only
where the source formats an error into a wrapping message. -/
def apiErrString : ApiErr → String
  | .apiError code msg => "scaleway api error " ++ toString code ++ ": " ++ msg
  | .other msg => msg

/-- Checks for the structured 404 case: the Go code clears the identifier
only when the error is an `api.APIError` whose `StatusCode` is 404. -/
def is404 : ApiErr → Bool
  | .apiError code _ => decide (code = 404)
  | .other _ => false

/-- One entry of the IP pool of the provider (`api.IP`): id, address and the
optionally attached server identifier. -/
structure IPRecord where
  ID : String
  Address : String
  Server : Option String
deriving DecidableEq, Repr

/-- The fields of the fetched `api.Server` that the Read path mirrors. -/
structure Server where
  name : String
  imageIdentifier : String
  commercialType : String
  enableIPV6 : Bool
  privateIP : String
  publicAddressIP : String
  ipv6Address : String
  state : String
  stateDetail : String
  tags : List String
deriving DecidableEq, Repr

/-- One element of the `volume` list attribute. -/
structure VolumeSpec where
  size_in_gb : Int
  type : String
  volume_id : String
deriving DecidableEq, Repr

/-- The terraform resource data of the server resource: the stored
identifier plus the schema attributes of `resourceScalewayServer`.
Maps are association lists. -/
structure ServerData where
  id : String
  name : String
  image : String
  type : String
  bootscript : String
  tags : List String
  security_group : String
  volume : List VolumeSpec
  enable_ipv6 : Bool
  dynamic_ip_required : Bool
  private_ip : String
  public_ip : String
  public_ipv6 : String
  state : String
  state_detail : String
  user_data : List (String × String)
  connInfo : List (String × String)
deriving DecidableEq, Repr

/-- The terraform resource data of the IP resource. -/
structure IPData where
  id : String
  server : String
  ip : String
deriving DecidableEq, Repr

/-- One gateway call, as issued by the reconcilers (reads and mutations). -/
inductive ProviderCall where
  | postVolume (idx : Nat)
  | postServer
  | patchUserdata (serverID key : String)
  | deleteUserdata (serverID key : String)
  | getUserdatas (serverID : String)
  | getUserdata (serverID key : String)
  | poweronServer (serverID : String)
  | getServer (serverID : String)
  | getIPS
  | attachIPCall (ipID serverID : String)
  | detachIPCall (ipID : String)
  | patchServer (serverID : String)
  | newIP
  | getIP (ipID : String)
  | deleteIP (ipID : String)
  | deleteStoppedServer (serverID : String)
  | deleteRunningServer (serverID : String)
deriving DecidableEq, Repr

/-- A step in the trace of a verb: taking or releasing the process-wide mutex
`mu`, or issuing one gateway call. -/
inductive Event where
  | lock
  | unlock
  | call (c : ProviderCall)
deriving DecidableEq, Repr

/-- The terraform `GetOk` on a string attribute: the zero value (empty
string) reports not-ok. -/
def getOkStr (s : String) : Option String :=
  if s = "" then none else some s

/-- Go map indexing on a key/value map represented as an association
list: the value of the first matching key, if any. -/
def mapLookup (k : String) : List (String × String) → Option String
  | [] => none
  | (k1, v) :: rest => if k1 = k then some v else mapLookup k rest

/-- The loop body of `readUserDatas`: one `GetUserdata` per key, in key
order, returning the accumulated map together with the first error (the
Go code returns the partially built map `m` alongside the error). -/
def readUDLoop (getUD : String → Except ApiErr String) (id : String) :
    List String → (List (String × String) × Option ApiErr) × List Event
  | [] => (([], none), [])
  | k :: ks =>
    match getUD k with
    | .error e => (([], some e), [.call (.getUserdata id k)])
    | .ok v =>
      let r := readUDLoop getUD id ks
      (((k, v) :: r.1.1, r.1.2), .call (.getUserdata id k) :: r.2)

/-- Embeds `readUserDatas`: `GetUserdatas` for the key list, then one
`GetUserdata` per key (the N+1 pattern). -/
def readUserDatas (getUDs : Except ApiErr (List String))
    (getUD : String → Except ApiErr String) (id : String) :
    (List (String × String) × Option ApiErr) × List Event :=
  match getUDs with
  | .error e => (([], some e), [.call (.getUserdatas id)])
  | .ok keys =>
    let r := readUDLoop getUD id keys
    (r.1, .call (.getUserdatas id) :: r.2)

/-- The gateway outcomes consumed by the server Read path. -/
structure ReadOracle where
  getServer : Except ApiErr Server
  getUserdatas : Except ApiErr (List String)
  getUserdata : String → Except ApiErr String

/-- Embeds `resourceScalewayServerRead`: fetch by identifier, clear the
identifier and succeed on a structured 404, mirror the observed fields
otherwise (IPv6 address only when enabled), set the connection info,
reload user data, and store the user-data map only when it is
non-empty. -/
def resourceScalewayServerRead (d : ServerData) (o : ReadOracle) :
    (ServerData × Option ApiErr) × List Event :=
  match o.getServer with
  | .error e =>
    match e with
    | .apiError code _ =>
      if code = 404 then (({ d with id := "" }, none), [.call (.getServer d.id)])
      else ((d, some e), [.call (.getServer d.id)])
    | .other _ => ((d, some e), [.call (.getServer d.id)])
  | .ok server =>
    let d1 := { d with
      name := server.name
      image := server.imageIdentifier
      type := server.commercialType
      enable_ipv6 := server.enableIPV6
      private_ip := server.privateIP
      public_ip := server.publicAddressIP }
    let d2 := if server.enableIPV6 then { d1 with public_ipv6 := server.ipv6Address } else d1
    let d3 := { d2 with
      state := server.state
      state_detail := server.stateDetail
      tags := server.tags
      connInfo := [("type", "ssh"), ("host", server.publicAddressIP)] }
    let rud := readUserDatas o.getUserdatas o.getUserdata d.id
    let evs := Event.call (.getServer d.id) :: rud.2
    match rud.1.2 with
    | some e => ((d3, some e), evs)
    | none =>
      if rud.1.1.length > 0 then (({ d3 with user_data := rud.1.1 }, none), evs)
      else ((d3, none), evs)

/-- The gateway outcomes consumed by the verbs of the IP resource. -/
structure IPOracle where
  newIP : Except ApiErr IPRecord
  getIP : Except ApiErr IPRecord
  attachOutcome : Option ApiErr
  detachOutcome : Option ApiErr
  deleteOutcome : Option ApiErr

/-- Embeds `resourceScalewayIPRead`: fetch by identifier, clear the
identifier and succeed on a structured 404, otherwise mirror the address
and, when attached, the server identifier. -/
def resourceScalewayIPRead (d : IPData) (o : IPOracle) :
    (IPData × Option ApiErr) × List Event :=
  match o.getIP with
  | .error e =>
    match e with
    | .apiError code _ =>
      if code = 404 then (({ d with id := "" }, none), [.call (.getIP d.id)])
      else ((d, some e), [.call (.getIP d.id)])
    | .other _ => ((d, some e), [.call (.getIP d.id)])
  | .ok ip =>
    let d1 := { d with ip := ip.Address }
    let d2 :=
      match ip.Server with
      | some s => { d1 with server := s }
      | none => d1
    ((d2, none), [.call (.getIP d.id)])

/-- Embeds the anonymous `ValidateFunc` of the `size_in_gb` volume
attribute: the only check the source performs is `value > 150`. -/
def sizeInGBValidateFunc (value : Int) : List String :=
  if value > 150 then ["size_in_gb needs to be less than 150"] else []

/-- Error message of `attachIP` when no pool entry carries the requested
address (from `fmt.Errorf` with a quoted argument). -/
def attachFailMsg (addr : String) : String :=
  "Failed to find IP with ip \"" ++ addr ++ "\" to attach"

/-- Embeds the helper `attachIP` of `resource_server.go`: list the IP
pool, attach the first entry whose address matches, otherwise fail.  The
outcome of the provider `AttachIP` call is given per IP id. -/
def attachIP (getIPSResult : Except ApiErr (List IPRecord))
    (serverID IPAddress : String) (attachCall : String → Option ApiErr) :
    Option ApiErr × List Event :=
  match getIPSResult with
  | .error e => (some e, [.call .getIPS])
  | .ok ips =>
    match ips.find? (fun ip => decide (ip.Address = IPAddress)) with
    | some ip => (attachCall ip.ID, [.call .getIPS, .call (.attachIPCall ip.ID serverID)])
    | none => (some (.other (attachFailMsg IPAddress)), [.call .getIPS])

/-- The gateway outcomes consumed by the server Create path. -/
structure CreateOracle where
  postVolume : Nat → Except ApiErr String
  postServer : Except ApiErr String
  patchUserdata : String → String → Option ApiErr
  poweron : Option ApiErr
  getIPS : Except ApiErr (List IPRecord)
  attachCall : String → Option ApiErr
  readO : ReadOracle

/-- Embeds the volume loop of `resourceScalewayServerCreate`: for each
declared volume whose size (after the Go `uint64` conversion of the `int`
value) is positive, create the volume and record the returned volume id;
the first failure aborts.  The `i`-th `PostVolume` outcome comes from
the oracle. -/
def createVolumes (postVolume : Nat → Except ApiErr String) :
    List VolumeSpec → Nat → Except ApiErr (List VolumeSpec) × List Event
  | [], _ => (.ok [], [])
  | v :: rest, i =>
    let sizeInGB := (v.size_in_gb % (2 ^ 64)).toNat
    if sizeInGB > 0 then
      match postVolume i with
      | .error e => (.error e, [.call (.postVolume i)])
      | .ok vid =>
        let r := createVolumes postVolume rest (i + 1)
        match r.1 with
        | .error e => (.error e, .call (.postVolume i) :: r.2)
        | .ok vs => (.ok ({ v with volume_id := vid } :: vs), .call (.postVolume i) :: r.2)
    else
      let r := createVolumes postVolume rest (i + 1)
      match r.1 with
      | .error e => (.error e, r.2)
      | .ok vs => (.ok (v :: vs), r.2)

/-- Embeds the user-data loop of `resourceScalewayServerCreate`: one
`PatchUserdata` per declared key; the first failure aborts. -/
def createUDPatches (patchCall : String → String → Option ApiErr) (id : String) :
    List (String × String) → Option ApiErr × List Event
  | [] => (none, [])
  | (k, v) :: rest =>
    match patchCall k v with
    | some e => (some e, [.call (.patchUserdata id k)])
    | none =>
      let r := createUDPatches patchCall id rest
      (r.1, .call (.patchUserdata id k) :: r.2)

/-- The lock-protected body of `resourceScalewayServerCreate`: create the
declared volumes, create the server (the payload is absorbed by the
oracle), store the returned identifier, write the declared user data,
and — when the desired state is not `stopped` — power the server on and,
if a public IP is declared, attach it via `attachIP`; note the power-on
error is kept in a variable and only returned after the attach block.
On full success the verb ends with a Read. -/
def serverCreateBody (d : ServerData) (o : CreateOracle) :
    (ServerData × Option ApiErr) × List Event :=
    let cv := createVolumes o.postVolume d.volume 0
    match cv.1 with
    | .error e => ((d, some e), cv.2)
    | .ok vols =>
      let d1 := { d with volume := vols }
      match o.postServer with
      | .error e => ((d1, some e), cv.2 ++ [.call .postServer])
      | .ok id =>
        let d2 := { d1 with id := id }
        let udr := createUDPatches o.patchUserdata id d2.user_data
        let evs2 := cv.2 ++ [.call .postServer] ++ udr.2
        match udr.1 with
        | some e => ((d2, some e), evs2)
        | none =>
          if d2.state ≠ "stopped" then
            let errPoweron := o.poweron
            let evs3 := evs2 ++ [.call (.poweronServer id)]
            match getOkStr d2.public_ip with
            | some addr =>
              let ar := attachIP o.getIPS id addr o.attachCall
              let evs4 := evs3 ++ ar.2
              match ar.1 with
              | some e => ((d2, some e), evs4)
              | none =>
                match errPoweron with
                | some e => ((d2, some e), evs4)
                | none =>
                  let rr := resourceScalewayServerRead d2 o.readO
                  (rr.1, evs4 ++ rr.2)
            | none =>
              match errPoweron with
              | some e => ((d2, some e), evs3)
              | none =>
                let rr := resourceScalewayServerRead d2 o.readO
                (rr.1, evs3 ++ rr.2)
          else
            let rr := resourceScalewayServerRead d2 o.readO
            (rr.1, evs2 ++ rr.2)

/-- Embeds `resourceScalewayServerCreate`: the process-wide mutex is
taken at entry and released by `defer` on every exit path, so the whole
body runs under one lock section. -/
def resourceScalewayServerCreate (d : ServerData) (o : CreateOracle) :
    (ServerData × Option ApiErr) × List Event :=
  let body := serverCreateBody d o
  (body.1, .lock :: body.2 ++ [.unlock])

/-- The gateway outcomes consumed by the server Update path. -/
structure UpdateOracle where
  patchServer : Option ApiErr
  getIPS : Except ApiErr (List IPRecord)
  attachCall : String → Option ApiErr
  detachCall : String → Option ApiErr
  getUserdatas : Except ApiErr (List String)
  getUserdata : String → Except ApiErr String
  deleteUD : String → Option ApiErr
  patchUD : String → String → Option ApiErr
  readO : ReadOracle

/-- Embeds the `public_ip` block of `resourceScalewayServerUpdate`: when
the attribute changed, list the pool; if a public IP is declared, attach
the first entry with that address (the loop breaks after one call);
otherwise detach the first entry attached to this server. -/
def updateIPBlock (old d : ServerData) (o : UpdateOracle) :
    Option ApiErr × List Event :=
  if old.public_ip ≠ d.public_ip then
    match o.getIPS with
    | .error e => (some e, [.call .getIPS])
    | .ok ips =>
      match getOkStr d.public_ip with
      | some v =>
        match ips.find? (fun ip => decide (ip.Address = v)) with
        | some ip => (o.attachCall ip.ID, [.call .getIPS, .call (.attachIPCall ip.ID d.id)])
        | none => (none, [.call .getIPS])
      | none =>
        match ips.find? (fun ip => decide (ip.Server = some d.id)) with
        | some ip => (o.detachCall ip.ID, [.call .getIPS, .call (.detachIPCall ip.ID)])
        | none => (none, [.call .getIPS])
  else (none, [])

/-- Embeds the delete loop of the user-data block: for each observed key
absent from the desired map, one `DeleteUserdata`; the first failure
aborts. -/
def runUDDeletes (deleteCall : String → Option ApiErr) (id : String)
    (m : List (String × String)) :
    List (String × String) → Option ApiErr × List Event
  | [] => (none, [])
  | (ak, _) :: rest =>
    if (mapLookup ak m).isNone then
      match deleteCall ak with
      | some e => (some e, [.call (.deleteUserdata id ak)])
      | none =>
        let r := runUDDeletes deleteCall id m rest
        (r.1, .call (.deleteUserdata id ak) :: r.2)
    else runUDDeletes deleteCall id m rest

/-- Embeds the patch loop of the user-data block: for each desired key
whose observed value differs (a missing key compares unequal, as the Go
nil interface does against a string), one `PatchUserdata`; the first
failure aborts. -/
def runUDPatches (patchCall : String → String → Option ApiErr) (id : String)
    (am : List (String × String)) :
    List (String × String) → Option ApiErr × List Event
  | [] => (none, [])
  | (k, v) :: rest =>
    if mapLookup k am ≠ some v then
      match patchCall k v with
      | some e => (some e, [.call (.patchUserdata id k)])
      | none =>
        let r := runUDPatches patchCall id am rest
        (r.1, .call (.patchUserdata id k) :: r.2)
    else runUDPatches patchCall id am rest

/-- Embeds the `user_data` block of `resourceScalewayServerUpdate`: when
the attribute changed, read the observed map, delete observed-only keys,
then patch desired keys whose value differs. -/
def updateUDBlock (old d : ServerData) (o : UpdateOracle) :
    Option ApiErr × List Event :=
  if old.user_data ≠ d.user_data then
    let rud := readUserDatas o.getUserdatas o.getUserdata d.id
    match rud.1.2 with
    | some e => (some e, rud.2)
    | none =>
      let am := rud.1.1
      let m := d.user_data
      let delr := runUDDeletes o.deleteUD d.id m am
      match delr.1 with
      | some e => (some e, rud.2 ++ delr.2)
      | none =>
        let patr := runUDPatches o.patchUD d.id am m
        (patr.1, rud.2 ++ delr.2 ++ patr.2)
  else (none, [])

/-- The lock-protected body of `resourceScalewayServerUpdate`: one
batched `PatchServer` (whose failure is wrapped in a message), then the
`public_ip` block, then the `user_data` block, then a final Read. -/
def serverUpdateBody (old d : ServerData) (o : UpdateOracle) :
    (ServerData × Option ApiErr) × List Event :=
    match o.patchServer with
    | some e =>
      ((d, some (ApiErr.other ("Failed patching scaleway server: " ++ apiErrString e))),
        [.call (.patchServer d.id)])
    | none =>
      let ipr := updateIPBlock old d o
      match ipr.1 with
      | some e => ((d, some e), .call (.patchServer d.id) :: ipr.2)
      | none =>
        let udr := updateUDBlock old d o
        match udr.1 with
        | some e => ((d, some e), .call (.patchServer d.id) :: (ipr.2 ++ udr.2))
        | none =>
          let rr := resourceScalewayServerRead d o.readO
          (rr.1, .call (.patchServer d.id) :: (ipr.2 ++ udr.2 ++ rr.2))

/-- Embeds `resourceScalewayServerUpdate`: the process-wide mutex is
taken at entry and released by `defer` on every exit path. -/
def resourceScalewayServerUpdate (old d : ServerData) (o : UpdateOracle) :
    (ServerData × Option ApiErr) × List Event :=
  let body := serverUpdateBody old d o
  (body.1, .lock :: body.2 ++ [.unlock])

/-- The gateway outcomes consumed by the server Delete path.  The bodies
of `deleteStoppedServer` and `deleteRunningServer` live outside the
given sources; only their net outcome matters to the identifier
handling, so each is one oracle outcome and one trace event. -/
structure DeleteOracle where
  getServer : Except ApiErr Server
  deleteStopped : Option ApiErr
  deleteRunning : Option ApiErr

/-- The lock-protected body of `resourceScalewayServerDelete`: fetch the
server; on a `stopped` state return the result of the stop-state deletion
directly (the identifier is not touched on this path); otherwise run the
running-state deletion and clear the identifier only when it
succeeded. -/
def serverDeleteBody (d : ServerData) (o : DeleteOracle) :
    (ServerData × Option ApiErr) × List Event :=
    match o.getServer with
    | .error e => ((d, some e), [.call (.getServer d.id)])
    | .ok s =>
      if s.state = "stopped" then
        ((d, o.deleteStopped), [.call (.getServer d.id), .call (.deleteStoppedServer d.id)])
      else
        match o.deleteRunning with
        | none => (({ d with id := "" }, none), [.call (.getServer d.id), .call (.deleteRunningServer d.id)])
        | some e => ((d, some e), [.call (.getServer d.id), .call (.deleteRunningServer d.id)])

/-- Embeds `resourceScalewayServerDelete`: the process-wide mutex is
taken at entry and released by `defer` on every exit path. -/
def resourceScalewayServerDelete (d : ServerData) (o : DeleteOracle) :
    (ServerData × Option ApiErr) × List Event :=
  let body := serverDeleteBody d o
  (body.1, .lock :: body.2 ++ [.unlock])

/-- The lock-protected body of `resourceScalewayIPUpdate`: when the
`server` attribute changed either attach this IP to the new server or
(on an empty server) detach it — the detach branch returns without the
final Read the other paths perform. -/
def ipUpdateBody (old d : IPData) (o : IPOracle) :
    (IPData × Option ApiErr) × List Event :=
    if old.server ≠ d.server then
      if d.server ≠ "" then
        match o.attachOutcome with
        | some e => ((d, some e), [.call (.attachIPCall d.id d.server)])
        | none =>
          let rr := resourceScalewayIPRead d o
          (rr.1, .call (.attachIPCall d.id d.server) :: rr.2)
      else ((d, o.detachOutcome), [.call (.detachIPCall d.id)])
    else
      let rr := resourceScalewayIPRead d o
      (rr.1, rr.2)

/-- Embeds `resourceScalewayIPUpdate`: the process-wide mutex is taken at
entry and released by `defer` on every exit path. -/
def resourceScalewayIPUpdate (old d : IPData) (o : IPOracle) :
    (IPData × Option ApiErr) × List Event :=
  let body := ipUpdateBody old d o
  (body.1, .lock :: body.2 ++ [.unlock])

/-- Embeds `resourceScalewayIPCreate`: the mutex is taken only around
the `NewIP` allocation and released before anything else; on success the
identifier is stored and the verb delegates to the Update path (which
locks again). -/
def resourceScalewayIPCreate (old d : IPData) (o : IPOracle) :
    (IPData × Option ApiErr) × List Event :=
  match o.newIP with
  | .error e => ((d, some e), [.lock, .call .newIP, .unlock])
  | .ok ip =>
    let d1 := { d with id := ip.ID }
    let ur := resourceScalewayIPUpdate old d1 o
    (ur.1, [Event.lock, Event.call .newIP, Event.unlock] ++ ur.2)

/-- The lock-protected body of `resourceScalewayIPDelete`: one
`DeleteIP`; on success the identifier is cleared. -/
def ipDeleteBody (d : IPData) (o : IPOracle) :
    (IPData × Option ApiErr) × List Event :=
    match o.deleteOutcome with
    | some e => ((d, some e), [.call (.deleteIP d.id)])
    | none => (({ d with id := "" }, none), [.call (.deleteIP d.id)])

/-- Embeds `resourceScalewayIPDelete`: the process-wide mutex is taken at
entry and released by `defer` on every exit path. -/
def resourceScalewayIPDelete (d : IPData) (o : IPOracle) :
    (IPData × Option ApiErr) × List Event :=
  let body := ipDeleteBody d o
  (body.1, .lock :: body.2 ++ [.unlock])

/-- Attempt outcomes distinguished by the retry policy. -/
inductive AttemptOutcome where
  | ok
  | retryable
  | terminal
deriving DecidableEq, Repr

/-- Modelled from the spec: the retry wrapper (`retry` in the helper file of the provider,
called `withRetry` in §4.1) is not among the given sources.
Per §4.1/§8 it executes the operation, re-invokes it on a retryable
error up to a fixed attempt budget, and stops immediately on success or
on a terminal error.  `op i` is the outcome of the `i`-th attempt; the
result is the number of attempts made and whether the last one
succeeded (backoff delays are irrelevant to the claims and omitted). -/
def withRetry (op : Nat → AttemptOutcome) : Nat → Nat → Nat × Bool
  | 0, _ => (0, false)
  | b + 1, i =>
    match op i with
    | .ok => (1, true)
    | .terminal => (1, false)
    | .retryable =>
      let r := withRetry op b (i + 1)
      (r.1 + 1, r.2)

/-- Distinguishes mutating gateway calls from read-only ones. -/
def isMutating : ProviderCall → Bool
  | .getServer _ => false
  | .getIPS => false
  | .getUserdatas _ => false
  | .getUserdata _ _ => false
  | .getIP _ => false
  | _ => true

/-- An event that is a mutating gateway call. -/
def isMutatingEvent : Event → Bool
  | .call c => isMutating c
  | _ => false

/-- Number of mutating gateway calls in a trace. -/
def mutCount (tr : List Event) : Nat :=
  (tr.filter isMutatingEvent).length

/-- An IP attach or detach gateway call. -/
def isIPAction : Event → Bool
  | .call (.attachIPCall _ _) => true
  | .call (.detachIPCall _) => true
  | _ => false

/-- Number of IP attach/detach calls in a trace. -/
def countIPCalls (tr : List Event) : Nat :=
  (tr.filter isIPAction).length

/-- A `DeleteUserdata` call. -/
def isUDDelete : Event → Bool
  | .call (.deleteUserdata _ _) => true
  | _ => false

/-- A `PatchUserdata` call. -/
def isUDPatch : Event → Bool
  | .call (.patchUserdata _ _) => true
  | _ => false

/-- Number of `DeleteUserdata` calls in a trace. -/
def countUDDeletes (tr : List Event) : Nat :=
  (tr.filter isUDDelete).length

/-- Number of `PatchUserdata` calls in a trace. -/
def countUDPatches (tr : List Event) : Nat :=
  (tr.filter isUDPatch).length

/-- Scans a trace and returns, for each lock/unlock section, the number
of mutating gateway calls issued while the lock was held. -/
def sectionCounts : List Event → Bool → Nat → List Nat
  | [], _, _ => []
  | .lock :: rest, _, _ => sectionCounts rest true 0
  | .unlock :: rest, _, acc => acc :: sectionCounts rest false 0
  | .call c :: rest, held, acc =>
    sectionCounts rest held (if held && isMutating c then acc + 1 else acc)

/-- An event that is one of the read-only gateway calls. -/
def isReadEvent : Event → Bool
  | .call c => !(isMutating c)
  | _ => false

/-- An event that is a gateway call (not a lock operation). -/
def isCallEvent : Event → Bool
  | .call _ => true
  | _ => false

theorem mapLookup_isSome_of_mem {k v : String} :
    ∀ {l : List (String × String)}, (k, v) ∈ l → (mapLookup k l).isSome = true := by
  intro l
  induction l with
  | nil => intro h; cases h
  | cons p rest ih =>
    intro h
    rcases p with ⟨k1, v1⟩
    by_cases hk : k1 = k
    · simp [mapLookup, hk]
    · rcases List.mem_cons.mp h with h1 | h1
      · cases h1; exact absurd rfl hk
      · simpa [mapLookup, hk] using ih h1

theorem mapLookup_eq_some_of_mem_nodup {k v : String} :
    ∀ {l : List (String × String)}, (l.map Prod.fst).Nodup → (k, v) ∈ l →
      mapLookup k l = some v := by
  intro l
  induction l with
  | nil => intro _ h; cases h
  | cons p rest ih =>
    intro hnd h
    rcases p with ⟨k1, v1⟩
    rcases List.mem_cons.mp h with h1 | h1
    · cases h1; simp [mapLookup]
    · have hk : k1 ≠ k := by
        intro hkk
        subst hkk
        have : k1 ∈ rest.map Prod.fst := List.mem_map.mpr ⟨(k1, v), h1, rfl⟩
        exact (List.nodup_cons.mp (by simpa using hnd)).1 this
      have hnd2 : (rest.map Prod.fst).Nodup := (List.nodup_cons.mp (by simpa using hnd)).2
      simpa [mapLookup, hk] using ih hnd2 h1

theorem filter_eq_nil_of_pt {p q : Event → Bool} (hpq : ∀ e, q e = true → p e = false) :
    ∀ {tr : List Event}, (∀ e ∈ tr, q e = true) → tr.filter p = [] := by
  intro tr h
  refine List.filter_eq_nil_iff.mpr ?_
  intro e he
  simp [hpq e (h e he)]

theorem readUDLoop_mem (g : String → Except ApiErr String) (id : String) :
    ∀ ks, ∀ e ∈ (readUDLoop g id ks).2, isReadEvent e = true := by
  intro ks
  induction ks with
  | nil => intro e he; simp [readUDLoop] at he
  | cons k rest ih =>
    intro e he
    unfold readUDLoop at he
    cases hg : g k with
    | error err => rw [hg] at he; simp at he; subst he; rfl
    | ok v =>
      rw [hg] at he
      simp at he
      rcases he with he | he
      · subst he; rfl
      · exact ih e he

theorem readUserDatas_mem (gs : Except ApiErr (List String))
    (g : String → Except ApiErr String) (id : String) :
    ∀ e ∈ (readUserDatas gs g id).2, isReadEvent e = true := by
  intro e he
  unfold readUserDatas at he
  cases gs with
  | error err => simp at he; subst he; rfl
  | ok keys =>
    simp at he
    rcases he with he | he
    · subst he; rfl
    · exact readUDLoop_mem g id keys e he

theorem serverRead_mem (d : ServerData) (o : ReadOracle) :
    ∀ e ∈ (resourceScalewayServerRead d o).2, isReadEvent e = true := by
  intro e he
  unfold resourceScalewayServerRead at he
  cases hg : o.getServer with
  | error err =>
    rw [hg] at he
    cases err with
    | apiError code msg =>
      by_cases h4 : code = 404 <;> simp [h4] at he <;> (subst he; rfl)
    | other m => simp at he; subst he; rfl
  | ok server =>
    rw [hg] at he
    simp only [] at he
    rcases hud : (readUserDatas o.getUserdatas o.getUserdata d.id).1.2 with _ | err
    · rw [hud] at he
      by_cases hl : (readUserDatas o.getUserdatas o.getUserdata d.id).1.1.length > 0 <;>
        simp [hl] at he <;>
        (rcases he with he | he
         · subst he; rfl
         · exact readUserDatas_mem o.getUserdatas o.getUserdata d.id e he)
    · rw [hud] at he
      simp at he
      rcases he with he | he
      · subst he; rfl
      · exact readUserDatas_mem o.getUserdatas o.getUserdata d.id e he

theorem ipRead_mem (d : IPData) (o : IPOracle) :
    ∀ e ∈ (resourceScalewayIPRead d o).2, isReadEvent e = true := by
  intro e he
  unfold resourceScalewayIPRead at he
  cases hg : o.getIP with
  | error err =>
    rw [hg] at he
    cases err with
    | apiError code msg =>
      by_cases h4 : code = 404 <;> simp [h4] at he <;> (subst he; rfl)
    | other m => simp at he; subst he; rfl
  | ok ip => rw [hg] at he; simp at he; subst he; rfl

theorem runUDDeletes_mem (del : String → Option ApiErr) (id : String)
    (m : List (String × String)) :
    ∀ am, ∀ e ∈ (runUDDeletes del id m am).2, isUDDelete e = true := by
  intro am
  induction am with
  | nil => intro e he; simp [runUDDeletes] at he
  | cons p rest ih =>
    intro e he
    rcases p with ⟨ak, av⟩
    unfold runUDDeletes at he
    by_cases hc : (mapLookup ak m).isNone = true
    · rw [if_pos hc] at he
      cases hdel : del ak with
      | some err => rw [hdel] at he; simp at he; subst he; rfl
      | none =>
        rw [hdel] at he
        simp at he
        rcases he with he | he
        · subst he; rfl
        · exact ih e he
    · rw [if_neg hc] at he
      exact ih e he

theorem runUDPatches_mem (pc : String → String → Option ApiErr) (id : String)
    (am : List (String × String)) :
    ∀ m, ∀ e ∈ (runUDPatches pc id am m).2, isUDPatch e = true := by
  intro m
  induction m with
  | nil => intro e he; simp [runUDPatches] at he
  | cons p rest ih =>
    intro e he
    rcases p with ⟨k, v⟩
    unfold runUDPatches at he
    by_cases hc : mapLookup k am ≠ some v
    · rw [if_pos hc] at he
      cases hpc : pc k v with
      | some err => rw [hpc] at he; simp at he; subst he; rfl
      | none =>
        rw [hpc] at he
        simp at he
        rcases he with he | he
        · subst he; rfl
        · exact ih e he
    · rw [if_neg hc] at he
      exact ih e he

theorem updateIPBlock_mem (old d : ServerData) (o : UpdateOracle) :
    ∀ e ∈ (updateIPBlock old d o).2, isReadEvent e = true ∨ isIPAction e = true := by
  intro e he
  unfold updateIPBlock at he
  split at he
  · split at he
    · simp at he; subst he; left; rfl
    · split at he
      · split at he
        · simp at he
          rcases he with he | he
          · subst he; left; rfl
          · subst he; right; rfl
        · simp at he; subst he; left; rfl
      · split at he
        · simp at he
          rcases he with he | he
          · subst he; left; rfl
          · subst he; right; rfl
        · simp at he; subst he; left; rfl
  · simp at he

theorem updateUDBlock_mem (old d : ServerData) (o : UpdateOracle) :
    ∀ e ∈ (updateUDBlock old d o).2,
      isReadEvent e = true ∨ isUDDelete e = true ∨ isUDPatch e = true := by
  intro e he
  unfold updateUDBlock at he
  dsimp only at he
  split at he
  · split at he
    · exact Or.inl (readUserDatas_mem _ _ _ e he)
    · split at he
      · simp at he
        rcases he with he | he
        · exact Or.inl (readUserDatas_mem _ _ _ e he)
        · exact Or.inr (Or.inl (runUDDeletes_mem _ _ _ _ e he))
      · simp at he
        rcases he with he | he | he
        · exact Or.inl (readUserDatas_mem _ _ _ e he)
        · exact Or.inr (Or.inl (runUDDeletes_mem _ _ _ _ e he))
        · exact Or.inr (Or.inr (runUDPatches_mem _ _ _ _ e he))
  · simp at he

theorem read_not_ipaction (e : Event) (h : isReadEvent e = true) : isIPAction e = false := by
  cases e with
  | lock => rfl
  | unlock => rfl
  | call c => cases c <;> simp_all [isReadEvent, isIPAction, isMutating]

theorem read_not_uddelete (e : Event) (h : isReadEvent e = true) : isUDDelete e = false := by
  cases e with
  | lock => rfl
  | unlock => rfl
  | call c => cases c <;> simp_all [isReadEvent, isUDDelete, isMutating]

theorem read_not_udpatch (e : Event) (h : isReadEvent e = true) : isUDPatch e = false := by
  cases e with
  | lock => rfl
  | unlock => rfl
  | call c => cases c <;> simp_all [isReadEvent, isUDPatch, isMutating]

theorem countIPCalls_zero_of_read (tr : List Event)
    (h : ∀ e ∈ tr, isReadEvent e = true) : countIPCalls tr = 0 := by
  unfold countIPCalls
  rw [filter_eq_nil_of_pt read_not_ipaction h]
  rfl

theorem countUDDeletes_zero_of_read (tr : List Event)
    (h : ∀ e ∈ tr, isReadEvent e = true) : countUDDeletes tr = 0 := by
  unfold countUDDeletes
  rw [filter_eq_nil_of_pt read_not_uddelete h]
  rfl

theorem countUDPatches_zero_of_read (tr : List Event)
    (h : ∀ e ∈ tr, isReadEvent e = true) : countUDPatches tr = 0 := by
  unfold countUDPatches
  rw [filter_eq_nil_of_pt read_not_udpatch h]
  rfl

theorem runUDDeletes_nil (del : String → Option ApiErr) (id : String)
    (m : List (String × String)) :
    ∀ am, (∀ p ∈ am, (mapLookup p.1 m).isSome = true) →
      runUDDeletes del id m am = (none, []) := by
  intro am
  induction am with
  | nil => intro _; rfl
  | cons p rest ih =>
    intro h
    rcases p with ⟨ak, av⟩
    have h1 := h (ak, av) (by simp)
    have h2 : (mapLookup ak m).isNone = false := by
      rcases hm : mapLookup ak m with _ | v
      · rw [hm] at h1; simp at h1
      · rfl
    unfold runUDDeletes
    simp only [h2, Bool.false_eq_true, if_false]
    exact ih (fun q hq => h q (by simp [hq]))

theorem runUDPatches_nil (pc : String → String → Option ApiErr) (id : String)
    (am : List (String × String)) :
    ∀ m, (∀ p ∈ m, mapLookup p.1 am = some p.2) →
      runUDPatches pc id am m = (none, []) := by
  intro m
  induction m with
  | nil => intro _; rfl
  | cons p rest ih =>
    intro h
    rcases p with ⟨k, v⟩
    have h1 := h (k, v) (by simp)
    unfold runUDPatches
    rw [if_neg (by simp [h1])]
    exact ih (fun q hq => h q (by simp [hq]))

theorem withRetry_bound (op : Nat → AttemptOutcome) :
    ∀ b i, (withRetry op b i).1 ≤ b := by
  intro b
  induction b with
  | zero => intro i; simp [withRetry]
  | succ b ih =>
    intro i
    unfold withRetry
    cases op i with
    | ok => simp
    | terminal => simp
    | retryable =>
      have := ih (i + 1)
      simp only []
      omega

theorem withRetry_succeeds (op : Nat → AttemptOutcome) :
    ∀ (N b i : Nat), (∀ j, j < N → op (i + j) = .retryable) → op (i + N) = .ok →
      N + 1 ≤ b → withRetry op b i = (N + 1, true) := by
  intro N
  induction N with
  | zero =>
    intro b i _ hok hb
    obtain ⟨b1, rfl⟩ : ∃ b1, b = b1 + 1 := ⟨b - 1, by omega⟩
    unfold withRetry
    rw [show i + 0 = i from rfl] at hok
    rw [hok]
  | succ N ih =>
    intro b i hfail hok hb
    obtain ⟨b1, rfl⟩ : ∃ b1, b = b1 + 1 := ⟨b - 1, by omega⟩
    have h0 : op i = .retryable := by
      have h1 := hfail 0 (by omega)
      simpa using h1
    have hrec := ih b1 (i + 1)
      (fun j hj => by
        have h2 := hfail (j + 1) (by omega)
        have h3 : i + (j + 1) = i + 1 + j := by omega
        rw [h3] at h2
        exact h2)
      (by
        have h4 : i + 1 + N = i + (N + 1) := by omega
        rw [h4]
        exact hok)
      (by omega)
    unfold withRetry
    rw [h0]
    simp [hrec]

/-- C5 (spec-modelled): an operation that fails retryably on the first `N`
attempts and succeeds on attempt `N` makes it through `withRetry` with
exactly `N + 1` invocations when the budget allows; the attempt count
never exceeds the budget; a terminal first outcome means exactly one
invocation and that error surfacing. -/
theorem retry_policy_spec (op : Nat → AttemptOutcome) (N budget : Nat) :
    ((∀ j, j < N → op j = .retryable) → op N = .ok → N + 1 ≤ budget →
      withRetry op budget 0 = (N + 1, true)) ∧
    (withRetry op budget 0).1 ≤ budget ∧
    (op 0 = .terminal → 1 ≤ budget → withRetry op budget 0 = (1, false)) := by
  refine ⟨?_, withRetry_bound op budget 0, ?_⟩
  · intro hfail hok hb
    exact withRetry_succeeds op N budget 0
      (fun j hj => by simpa using hfail j hj) (by simpa using hok) hb
  · intro hterm hb
    obtain ⟨b1, rfl⟩ : ∃ b1, budget = b1 + 1 := ⟨budget - 1, by omega⟩
    unfold withRetry
    rw [hterm]

/-- Witness for the retry-policy theorem: two transient failures then
success yields three attempts; a terminal error yields one attempt. -/
theorem retry_policy_spec_witness :
    withRetry (fun i => if i < 2 then AttemptOutcome.retryable else .ok) 5 0 = (3, true) ∧
    withRetry (fun _ => AttemptOutcome.terminal) 5 0 = (1, false) := by
  constructor
  · exact (retry_policy_spec (fun i => if i < 2 then .retryable else .ok) 2 5).1
      (fun j hj => by simp [hj]) rfl (by omega)
  · exact (retry_policy_spec (fun _ => AttemptOutcome.terminal) 0 5).2.2 rfl (by omega)

/-- C6 counterexample: the claimed range is 1–150, but the validator
accepts 0 (and any negative value), which lies outside that range. -/
theorem sizeInGB_validator_accepts_zero :
    sizeInGBValidateFunc 0 = [] ∧ ¬ ((1 : Int) ≤ 0 ∧ (0 : Int) ≤ 150) := by
  exact ⟨rfl, by decide⟩

/-- C6 (amended): the `size_in_gb` validator accepts a value exactly when
it is at most 150 — the boundary behaviour (150 accepted, 151 rejected)
is as claimed, but no lower bound is checked, so zero and negative
values pass. -/
theorem sizeInGB_validator_iff (value : Int) :
    sizeInGBValidateFunc value = [] ↔ value ≤ 150 := by
  unfold sizeInGBValidateFunc
  by_cases h : value > 150
  · rw [if_pos h]
    constructor
    · intro hc; cases hc
    · intro hc; omega
  · rw [if_neg h]
    constructor
    · intro _; omega
    · intro _; rfl

/-- Witness for the validator characterization at the boundary value. -/
theorem sizeInGB_validator_iff_witness : sizeInGBValidateFunc 150 = [] :=
  (sizeInGB_validator_iff 150).mpr (by decide)

/-- C1 (confirmed): a fetch failure that is a structured 404 makes Read
(for both the Server and the IP resource) clear the identifier and
return success; every other fetch failure is returned unchanged with the
resource data untouched. -/
theorem read_notfound_clears_identifier (d : ServerData) (dip : IPData)
    (o : ReadOracle) (oi : IPOracle) (e f : ApiErr)
    (hs : o.getServer = .error e) (hi : oi.getIP = .error f) :
    ((is404 e = true → (resourceScalewayServerRead d o).1 = ({ d with id := "" }, none)) ∧
      (is404 e = false → (resourceScalewayServerRead d o).1 = (d, some e))) ∧
    ((is404 f = true → (resourceScalewayIPRead dip oi).1 = ({ dip with id := "" }, none)) ∧
      (is404 f = false → (resourceScalewayIPRead dip oi).1 = (dip, some f))) := by
  constructor
  · constructor
    · intro h4
      unfold resourceScalewayServerRead
      rw [hs]
      cases e with
      | apiError code msg =>
        have hc : code = 404 := by simpa [is404] using h4
        simp [hc]
      | other m => simp [is404] at h4
    · intro h4
      unfold resourceScalewayServerRead
      rw [hs]
      cases e with
      | apiError code msg =>
        have hc : ¬ code = 404 := by simpa [is404] using h4
        simp [hc]
      | other m => simp
  · constructor
    · intro h4
      unfold resourceScalewayIPRead
      rw [hi]
      cases f with
      | apiError code msg =>
        have hc : code = 404 := by simpa [is404] using h4
        simp [hc]
      | other m => simp [is404] at h4
    · intro h4
      unfold resourceScalewayIPRead
      rw [hi]
      cases f with
      | apiError code msg =>
        have hc : ¬ code = 404 := by simpa [is404] using h4
        simp [hc]
      | other m => simp

/-- Server data used by the concrete witnesses and counterexamples. -/
def exData : ServerData :=
  { id := "srv-1", name := "srv", image := "img", type := "VC1S", bootscript := "",
    tags := [], security_group := "", volume := [], enable_ipv6 := false,
    dynamic_ip_required := false, private_ip := "", public_ip := "1.2.3.4",
    public_ipv6 := "", state := "", state_detail := "",
    user_data := [("k", "v")], connInfo := [] }

/-- Fetched server object used by the concrete witnesses. -/
def exServer (st : String) : Server :=
  { name := "srv", imageIdentifier := "img", commercialType := "VC1S",
    enableIPV6 := false, privateIP := "10.0.0.2", publicAddressIP := "1.2.3.4",
    ipv6Address := "", state := st, stateDetail := "", tags := [] }

/-- IP resource data used by the concrete witnesses. -/
def exIPData : IPData := { id := "ip-1", server := "srv-1", ip := "1.2.3.4" }

/-- Read oracle whose fetch reports a 404. -/
def ex404ReadOracle : ReadOracle :=
  { getServer := .error (.apiError 404 "gone"), getUserdatas := .ok [],
    getUserdata := fun _ => .ok "" }

/-- IP oracle whose fetch reports a 404. -/
def ex404IPOracle : IPOracle :=
  { newIP := .error (.other "unused"), getIP := .error (.apiError 404 "gone"),
    attachOutcome := none, detachOutcome := none, deleteOutcome := none }

/-- Witness for the 404-clears-identifier theorem at concrete data. -/
theorem read_notfound_clears_identifier_witness :
    (resourceScalewayServerRead exData ex404ReadOracle).1 = ({ exData with id := "" }, none) ∧
    (resourceScalewayIPRead exIPData ex404IPOracle).1 = ({ exIPData with id := "" }, none) := by
  have h := read_notfound_clears_identifier exData exIPData ex404ReadOracle ex404IPOracle
    (.apiError 404 "gone") (.apiError 404 "gone") rfl rfl
  exact ⟨h.1.1 rfl, h.2.1 rfl⟩

/-- Delete oracle of the counterexample: the server is observed
`stopped` and the stop-state deletion succeeds. -/
def c3oracle : DeleteOracle :=
  { getServer := .ok (exServer "stopped"), deleteStopped := none, deleteRunning := none }

/-- C3 counterexample: a Delete that succeeds through the stopped-state
path returns success yet leaves the stored identifier `"srv-1"` in
place — the source only clears the identifier on the running-state
path. -/
theorem delete_stopped_success_keeps_identifier :
    (resourceScalewayServerDelete exData c3oracle).1.2 = none ∧
    (resourceScalewayServerDelete exData c3oracle).1.1.id = "srv-1" ∧
    ("srv-1" : String) ≠ "" := by
  exact ⟨rfl, rfl, by decide⟩

/-- C3 (amended): Delete clears the identifier exactly on success of the
running-state deletion path; the stopped-state path returns the
outcome of the stop-state deletion with the identifier untouched even on
success, and every failure (fetch, stopped-path or running-path) leaves
the identifier unchanged. -/
theorem delete_identifier_discipline (d : ServerData) (o : DeleteOracle) :
    (∀ e, o.getServer = .error e → (resourceScalewayServerDelete d o).1 = (d, some e)) ∧
    (∀ s, o.getServer = .ok s → s.state = "stopped" →
      (resourceScalewayServerDelete d o).1 = (d, o.deleteStopped)) ∧
    (∀ s, o.getServer = .ok s → s.state ≠ "stopped" → o.deleteRunning = none →
      (resourceScalewayServerDelete d o).1 = ({ d with id := "" }, none)) ∧
    (∀ s e, o.getServer = .ok s → s.state ≠ "stopped" → o.deleteRunning = some e →
      (resourceScalewayServerDelete d o).1 = (d, some e)) := by
  refine ⟨?_, ?_, ?_, ?_⟩
  · intro e he
    unfold resourceScalewayServerDelete serverDeleteBody
    rw [he]
  · intro s hs hst
    unfold resourceScalewayServerDelete serverDeleteBody
    rw [hs]
    simp [hst]
  · intro s hs hst hdr
    unfold resourceScalewayServerDelete serverDeleteBody
    rw [hs]
    simp [hst, hdr]
  · intro s e hs hst hdr
    unfold resourceScalewayServerDelete serverDeleteBody
    rw [hs]
    simp [hst, hdr]

/-- Witness for the Delete identifier discipline: the stopped path keeps
the data unchanged on success. -/
theorem delete_identifier_discipline_witness :
    (resourceScalewayServerDelete exData c3oracle).1 = (exData, none) :=
  (delete_identifier_discipline exData c3oracle).2.1 (exServer "stopped") rfl rfl

/-- C10 (confirmed): after a successful fetch, Read stores the freshly
read user-data map only when it is non-empty; an empty observed map
leaves the previously stored `user_data` attribute untouched while the
Read still succeeds. -/
theorem read_user_data_nonempty_only (d : ServerData) (o : ReadOracle) (s : Server)
    (hs : o.getServer = .ok s) :
    ((readUserDatas o.getUserdatas o.getUserdata d.id).1 = ([], none) →
      ((resourceScalewayServerRead d o).1.1).user_data = d.user_data ∧
      (resourceScalewayServerRead d o).1.2 = none) ∧
    (∀ ud, (readUserDatas o.getUserdatas o.getUserdata d.id).1 = (ud, none) → ud ≠ [] →
      ((resourceScalewayServerRead d o).1.1).user_data = ud ∧
      (resourceScalewayServerRead d o).1.2 = none) := by
  constructor
  · intro hud
    have h2 : (readUserDatas o.getUserdatas o.getUserdata d.id).1.2 = none := by rw [hud]
    have h1 : (readUserDatas o.getUserdatas o.getUserdata d.id).1.1 = [] := by rw [hud]
    unfold resourceScalewayServerRead
    rw [hs]
    dsimp only
    rw [h2, h1]
    cases hb : s.enableIPV6 <;> simp [hb]
  · intro ud hud hne
    have h2 : (readUserDatas o.getUserdatas o.getUserdata d.id).1.2 = none := by rw [hud]
    have h1 : (readUserDatas o.getUserdatas o.getUserdata d.id).1.1 = ud := by rw [hud]
    have hlen : ud.length > 0 := List.length_pos.mpr hne
    unfold resourceScalewayServerRead
    rw [hs]
    dsimp only
    rw [h2, h1]
    cases hb : s.enableIPV6 <;> simp [hb, hlen]

/-- Read oracle reporting a successful fetch and an empty user-data set. -/
def exEmptyUDOracle : ReadOracle :=
  { getServer := .ok (exServer "running"), getUserdatas := .ok [],
    getUserdata := fun _ => .ok "" }

/-- Read oracle reporting a successful fetch and one user-data key. -/
def exOneUDOracle : ReadOracle :=
  { getServer := .ok (exServer "running"), getUserdatas := .ok ["k"],
    getUserdata := fun _ => .ok "v" }

/-- Witness for the Read user-data behaviour: an empty observed map keeps
the stored attribute, a non-empty one replaces it. -/
theorem read_user_data_nonempty_only_witness :
    ((resourceScalewayServerRead exData exEmptyUDOracle).1.1).user_data = exData.user_data ∧
    ((resourceScalewayServerRead exData exOneUDOracle).1.1).user_data = [("k", "v")] := by
  constructor
  · exact ((read_user_data_nonempty_only exData exEmptyUDOracle (exServer "running") rfl).1 rfl).1
  · exact ((read_user_data_nonempty_only exData exOneUDOracle (exServer "running") rfl).2
      [("k", "v")] rfl (by decide)).1

theorem ipaction_not_uddelete (e : Event) (h : isIPAction e = true) : isUDDelete e = false := by
  cases e with
  | lock => rfl
  | unlock => rfl
  | call c => cases c <;> simp_all [isIPAction, isUDDelete]

theorem ipaction_not_udpatch (e : Event) (h : isIPAction e = true) : isUDPatch e = false := by
  cases e with
  | lock => rfl
  | unlock => rfl
  | call c => cases c <;> simp_all [isIPAction, isUDPatch]

theorem uddelete_not_ipaction (e : Event) (h : isUDDelete e = true) : isIPAction e = false := by
  cases e with
  | lock => rfl
  | unlock => rfl
  | call c => cases c <;> simp_all [isIPAction, isUDDelete]

theorem udpatch_not_ipaction (e : Event) (h : isUDPatch e = true) : isIPAction e = false := by
  cases e with
  | lock => rfl
  | unlock => rfl
  | call c => cases c <;> simp_all [isIPAction, isUDPatch]

theorem countUDDeletes_nil : countUDDeletes [] = 0 := rfl

theorem countUDPatches_nil : countUDPatches [] = 0 := rfl

theorem countIPCalls_nil : countIPCalls [] = 0 := rfl

theorem countUDDeletes_cons (e : Event) (tr : List Event) :
    countUDDeletes (e :: tr) = (if isUDDelete e then 1 else 0) + countUDDeletes tr := by
  simp only [countUDDeletes, List.filter_cons]
  split <;> simp <;> omega

theorem countUDPatches_cons (e : Event) (tr : List Event) :
    countUDPatches (e :: tr) = (if isUDPatch e then 1 else 0) + countUDPatches tr := by
  simp only [countUDPatches, List.filter_cons]
  split <;> simp <;> omega

theorem countIPCalls_cons (e : Event) (tr : List Event) :
    countIPCalls (e :: tr) = (if isIPAction e then 1 else 0) + countIPCalls tr := by
  simp only [countIPCalls, List.filter_cons]
  split <;> simp <;> omega

theorem countUDDeletes_append (a b : List Event) :
    countUDDeletes (a ++ b) = countUDDeletes a + countUDDeletes b := by
  simp [countUDDeletes, List.filter_append]

theorem countUDPatches_append (a b : List Event) :
    countUDPatches (a ++ b) = countUDPatches a + countUDPatches b := by
  simp [countUDPatches, List.filter_append]

theorem countIPCalls_append (a b : List Event) :
    countIPCalls (a ++ b) = countIPCalls a + countIPCalls b := by
  simp [countIPCalls, List.filter_append]

theorem countUDDeletes_zero_of_ipblock (old d : ServerData) (o : UpdateOracle) :
    countUDDeletes (updateIPBlock old d o).2 = 0 := by
  unfold countUDDeletes
  rw [List.filter_eq_nil_iff.mpr ?_]
  · rfl
  · intro e he
    rcases updateIPBlock_mem old d o e he with h | h
    · simp [read_not_uddelete e h]
    · simp [ipaction_not_uddelete e h]

theorem countUDPatches_zero_of_ipblock (old d : ServerData) (o : UpdateOracle) :
    countUDPatches (updateIPBlock old d o).2 = 0 := by
  unfold countUDPatches
  rw [List.filter_eq_nil_iff.mpr ?_]
  · rfl
  · intro e he
    rcases updateIPBlock_mem old d o e he with h | h
    · simp [read_not_udpatch e h]
    · simp [ipaction_not_udpatch e h]

theorem countIPCalls_zero_of_udblock (old d : ServerData) (o : UpdateOracle) :
    countIPCalls (updateUDBlock old d o).2 = 0 := by
  unfold countIPCalls
  rw [List.filter_eq_nil_iff.mpr ?_]
  · rfl
  · intro e he
    rcases updateUDBlock_mem old d o e he with h | h | h
    · simp [read_not_ipaction e h]
    · simp [uddelete_not_ipaction e h]
    · simp [udpatch_not_ipaction e h]

/-- Under pointwise equality of the observed and desired user-data maps,
the trace of the user-data block is just the read trace (or empty when the
attribute did not change): no deletes and no patches are issued. -/
theorem updateUDBlock_trace_of_idem (old d : ServerData) (o : UpdateOracle)
    (hnd : (d.user_data.map Prod.fst).Nodup)
    (heq : ∀ k, mapLookup k (readUserDatas o.getUserdatas o.getUserdata d.id).1.1 =
      mapLookup k d.user_data) :
    (updateUDBlock old d o).2 = (readUserDatas o.getUserdatas o.getUserdata d.id).2 ∨
    (updateUDBlock old d o).2 = [] := by
  unfold updateUDBlock
  dsimp only
  split
  · rcases hud : (readUserDatas o.getUserdatas o.getUserdata d.id).1.2 with _ | e
    · have hdel : runUDDeletes o.deleteUD d.id d.user_data
          (readUserDatas o.getUserdatas o.getUserdata d.id).1.1 = (none, []) := by
        refine runUDDeletes_nil _ _ _ _ ?_
        intro p hp
        rw [← heq p.1]
        exact mapLookup_isSome_of_mem (by exact hp)
      have hpat : runUDPatches o.patchUD d.id
          (readUserDatas o.getUserdatas o.getUserdata d.id).1.1 d.user_data = (none, []) := by
        refine runUDPatches_nil _ _ _ _ ?_
        intro p hp
        rw [heq p.1]
        exact mapLookup_eq_some_of_mem_nodup hnd (by exact hp)
      rw [hdel]
      simp [hpat]
    · exact Or.inl rfl
  · right
    rfl

/-- C4 (confirmed): the user-data reconciliation is idempotent — whenever
the observed user-data map (as read back by `readUserDatas`) equals the
desired map pointwise (desired keys unique), the Update invocation
issues zero `DeleteUserdata` and zero `PatchUserdata` provider calls. -/
theorem user_data_update_idempotent (old d : ServerData) (o : UpdateOracle)
    (hnd : (d.user_data.map Prod.fst).Nodup)
    (heq : ∀ k, mapLookup k (readUserDatas o.getUserdatas o.getUserdata d.id).1.1 =
      mapLookup k d.user_data) :
    countUDDeletes (resourceScalewayServerUpdate old d o).2 = 0 ∧
    countUDPatches (resourceScalewayServerUpdate old d o).2 = 0 := by
  have hudtr := updateUDBlock_trace_of_idem old d o hnd heq
  have hudtrD : countUDDeletes (updateUDBlock old d o).2 = 0 := by
    rcases hudtr with h | h <;> rw [h]
    · exact countUDDeletes_zero_of_read _ (readUserDatas_mem _ _ _)
    · rfl
  have hudtrP : countUDPatches (updateUDBlock old d o).2 = 0 := by
    rcases hudtr with h | h <;> rw [h]
    · exact countUDPatches_zero_of_read _ (readUserDatas_mem _ _ _)
    · rfl
  have hrr : countUDDeletes (resourceScalewayServerRead d o.readO).2 = 0 :=
    countUDDeletes_zero_of_read _ (serverRead_mem _ _)
  have hrrP : countUDPatches (resourceScalewayServerRead d o.readO).2 = 0 :=
    countUDPatches_zero_of_read _ (serverRead_mem _ _)
  unfold resourceScalewayServerUpdate serverUpdateBody
  dsimp only
  cases hps : o.patchServer with
  | some e => exact ⟨rfl, rfl⟩
  | none =>
    rcases hip : (updateIPBlock old d o).1 with _ | e
    · rcases hud : (updateUDBlock old d o).1 with _ | e
      · constructor
        · simp only [List.cons_append, List.append_assoc, List.nil_append,
            countUDDeletes_cons, countUDDeletes_append, countUDDeletes_nil,
            countUDDeletes_zero_of_ipblock, hudtrD, hrr]
          simp [isUDDelete]
        · simp only [List.cons_append, List.append_assoc, List.nil_append,
            countUDPatches_cons, countUDPatches_append, countUDPatches_nil,
            countUDPatches_zero_of_ipblock, hudtrP, hrrP]
          simp [isUDPatch]
      · constructor
        · simp only [List.cons_append, List.append_assoc, List.nil_append,
            countUDDeletes_cons, countUDDeletes_append, countUDDeletes_nil,
            countUDDeletes_zero_of_ipblock, hudtrD]
          simp [isUDDelete]
        · simp only [List.cons_append, List.append_assoc, List.nil_append,
            countUDPatches_cons, countUDPatches_append, countUDPatches_nil,
            countUDPatches_zero_of_ipblock, hudtrP]
          simp [isUDPatch]
    · constructor
      · simp only [List.cons_append, List.append_assoc, List.nil_append,
          countUDDeletes_cons, countUDDeletes_append, countUDDeletes_nil,
          countUDDeletes_zero_of_ipblock]
        simp [isUDDelete]
      · simp only [List.cons_append, List.append_assoc, List.nil_append,
          countUDPatches_cons, countUDPatches_append, countUDPatches_nil,
          countUDPatches_zero_of_ipblock]
        simp [isUDPatch]

/-- Old server data whose user-data attribute differs from `exData`,
forcing the user-data diff to run. -/
def exOldData : ServerData := { exData with user_data := [] }

/-- Update oracle whose observed user-data map equals the desired map of
`exData`. -/
def exIdemOracle : UpdateOracle :=
  { patchServer := none,
    getIPS := .ok [],
    attachCall := fun _ => none, detachCall := fun _ => none,
    getUserdatas := .ok ["k"], getUserdata := fun _ => .ok "v",
    deleteUD := fun _ => none, patchUD := fun _ _ => none,
    readO := exEmptyUDOracle }

/-- Witness for user-data idempotence: observed `{k: v}` equals desired
`{k: v}`, so no user-data writes are issued. -/
theorem user_data_update_idempotent_witness :
    countUDDeletes (resourceScalewayServerUpdate exOldData exData exIdemOracle).2 = 0 ∧
    countUDPatches (resourceScalewayServerUpdate exOldData exData exIdemOracle).2 = 0 :=
  user_data_update_idempotent exOldData exData exIdemOracle (by decide) (fun _ => rfl)

theorem countIPCalls_ipblock_le_one (old d : ServerData) (o : UpdateOracle) :
    countIPCalls (updateIPBlock old d o).2 ≤ 1 := by
  unfold updateIPBlock
  split
  · split
    · simp [countIPCalls, isIPAction]
    · split
      · split <;> simp [countIPCalls, isIPAction]
      · split <;> simp [countIPCalls, isIPAction]
  · simp [countIPCalls]

/-- The attach case of the `public_ip` block: the first pool entry whose
address matches the desired one is attached, with no check of its
current attachment. -/
theorem updateIPBlock_attach_eq (old d : ServerData) (o : UpdateOracle)
    (pool : List IPRecord) (ip : IPRecord) (addr : String)
    (hch : old.public_ip ≠ d.public_ip) (hg : o.getIPS = .ok pool)
    (hok : getOkStr d.public_ip = some addr)
    (hf : pool.find? (fun q => decide (q.Address = addr)) = some ip) :
    updateIPBlock old d o =
      (o.attachCall ip.ID, [.call .getIPS, .call (.attachIPCall ip.ID d.id)]) := by
  unfold updateIPBlock
  rw [if_pos hch]
  simp only [hg, hok, hf]

/-- C2 (amended): the Update attach/detach block issues at most one IP
action per invocation (never both an attach and a detach); but whenever
some pool entry carries the desired address, an `AttachIP` is issued for
the first such entry even when that entry is already attached to this
very server — the block is a no-op only when no pool entry matches. -/
theorem ip_diff_at_most_one_action (old d : ServerData) (o : UpdateOracle) :
    countIPCalls (resourceScalewayServerUpdate old d o).2 ≤ 1 ∧
    (∀ pool ip addr, o.patchServer = none → o.getIPS = .ok pool →
      getOkStr d.public_ip = some addr →
      pool.find? (fun q => decide (q.Address = addr)) = some ip →
      old.public_ip ≠ d.public_ip →
      Event.call (.attachIPCall ip.ID d.id) ∈ (resourceScalewayServerUpdate old d o).2) := by
  constructor
  · have hud := countIPCalls_zero_of_udblock old d o
    have hrr := countIPCalls_zero_of_read _ (serverRead_mem d o.readO)
    have hip := countIPCalls_ipblock_le_one old d o
    unfold resourceScalewayServerUpdate serverUpdateBody
    dsimp only
    cases hps : o.patchServer with
    | some e => simp [countIPCalls, isIPAction]
    | none =>
      rcases hipe : (updateIPBlock old d o).1 with _ | e
      · rcases hude : (updateUDBlock old d o).1 with _ | e
        · simp only [List.cons_append, List.append_assoc, List.nil_append,
            countIPCalls_cons, countIPCalls_append, countIPCalls_nil, hud, hrr]
          simp [isIPAction]
          omega
        · simp only [List.cons_append, List.append_assoc, List.nil_append,
            countIPCalls_cons, countIPCalls_append, countIPCalls_nil, hud]
          simp [isIPAction]
          omega
      · simp only [List.cons_append, List.append_assoc, List.nil_append,
          countIPCalls_cons, countIPCalls_append, countIPCalls_nil]
        simp [isIPAction]
        omega
  · intro pool ip addr hps hg hok hf hch
    have hipeq := updateIPBlock_attach_eq old d o pool ip addr hch hg hok hf
    unfold resourceScalewayServerUpdate serverUpdateBody
    dsimp only
    simp only [hps, hipeq]
    cases hac : o.attachCall ip.ID with
    | none => rcases hude : (updateUDBlock old d o).1 with _ | e <;> simp
    | some e => simp

/-- The pool entry of the C2 counterexample: its address is the desired
one and it is already attached to server `srv-1`. -/
def c2entry : IPRecord := { ID := "ip-1", Address := "1.2.3.4", Server := some "srv-1" }

/-- Old server data of the C2 scenario: the stored public IP differs from
the desired one, so the `public_ip` block runs. -/
def c2old : ServerData := { exData with public_ip := "5.6.7.8" }

/-- Update oracle of the C2 scenario. -/
def c2oracle : UpdateOracle :=
  { patchServer := none,
    getIPS := .ok [c2entry],
    attachCall := fun _ => none, detachCall := fun _ => none,
    getUserdatas := .ok ["k"], getUserdata := fun _ => .ok "v",
    deleteUD := fun _ => none, patchUD := fun _ _ => none,
    readO := exEmptyUDOracle }

/-- C2 counterexample: the desired address `1.2.3.4` is already attached
to this very server (`srv-1`) in the pool, yet the Update invocation
still issues one `AttachIP` call instead of the claimed zero actions. -/
theorem ip_diff_attach_already_attached :
    countIPCalls (resourceScalewayServerUpdate c2old exData c2oracle).2 = 1 ∧
    c2entry.Server = some exData.id ∧
    c2entry.Address = "1.2.3.4" ∧
    getOkStr exData.public_ip = some "1.2.3.4" ∧
    c2old.public_ip ≠ exData.public_ip := by
  refine ⟨rfl, rfl, rfl, rfl, by decide⟩

/-- Witness for the amended IP-diff theorem at the concrete scenario. -/
theorem ip_diff_at_most_one_action_witness :
    countIPCalls (resourceScalewayServerUpdate c2old exData c2oracle).2 ≤ 1 ∧
    Event.call (.attachIPCall c2entry.ID exData.id) ∈
      (resourceScalewayServerUpdate c2old exData c2oracle).2 := by
  refine ⟨(ip_diff_at_most_one_action c2old exData c2oracle).1, ?_⟩
  exact (ip_diff_at_most_one_action c2old exData c2oracle).2 [c2entry] c2entry "1.2.3.4"
    rfl rfl rfl rfl (by decide)

theorem attachIP_getIPS_mem (g : Except ApiErr (List IPRecord)) (s a : String)
    (c : String → Option ApiErr) :
    Event.call ProviderCall.getIPS ∈ (attachIP g s a c).2 := by
  unfold attachIP
  split
  · simp
  · split <;> simp

/-- C7 (confirmed): in the Create path with a desired state other than
`stopped`, the IP-attach step runs regardless of the power-on outcome;
an attach failure is the error returned (shadowing any power-on error);
when the attach succeeds, or no public IP is declared, a power-on error
is what Create returns. -/
theorem create_error_shadowing (d : ServerData) (o : CreateOracle)
    (vols : List VolumeSpec) (sid : String)
    (hvol : (createVolumes o.postVolume d.volume 0).1 = .ok vols)
    (hps : o.postServer = .ok sid)
    (hud : (createUDPatches o.patchUserdata sid d.user_data).1 = none)
    (hstate : d.state ≠ "stopped") :
    (∀ addr, getOkStr d.public_ip = some addr →
      Event.call ProviderCall.getIPS ∈ (resourceScalewayServerCreate d o).2) ∧
    (∀ addr e, getOkStr d.public_ip = some addr →
      (attachIP o.getIPS sid addr o.attachCall).1 = some e →
      (resourceScalewayServerCreate d o).1.2 = some e) ∧
    (∀ addr, getOkStr d.public_ip = some addr →
      (attachIP o.getIPS sid addr o.attachCall).1 = none →
      ∀ ep, o.poweron = some ep → (resourceScalewayServerCreate d o).1.2 = some ep) ∧
    (getOkStr d.public_ip = none →
      ∀ ep, o.poweron = some ep → (resourceScalewayServerCreate d o).1.2 = some ep) := by
  refine ⟨?_, ?_, ?_, ?_⟩
  · intro addr haddr
    have hmem := attachIP_getIPS_mem o.getIPS sid addr o.attachCall
    unfold resourceScalewayServerCreate serverCreateBody
    dsimp only
    simp only [hvol, hps, hud, haddr]
    rw [if_pos hstate]
    rcases hae : (attachIP o.getIPS sid addr o.attachCall).1 with _ | e
    · cases hpw : o.poweron <;>
        · simp [List.mem_append]
          tauto
    · simp [List.mem_append]
      tauto
  · intro addr e haddr hae
    unfold resourceScalewayServerCreate serverCreateBody
    dsimp only
    simp only [hvol, hps, hud, haddr]
    rw [if_pos hstate]
    simp [hae]
  · intro addr haddr hae ep hpw
    unfold resourceScalewayServerCreate serverCreateBody
    dsimp only
    simp only [hvol, hps, hud, haddr]
    rw [if_pos hstate]
    simp [hae, hpw]
  · intro haddr ep hpw
    unfold resourceScalewayServerCreate serverCreateBody
    dsimp only
    simp only [hvol, hps, hud, haddr]
    rw [if_pos hstate]
    simp [hpw]

/-- Create oracle of the C7 witness: power-on fails, the attach also
fails (no pool entry), and only the attach error surfaces. -/
def c7oracle : CreateOracle :=
  { postVolume := fun _ => .ok "vol-1", postServer := .ok "srv-9",
    patchUserdata := fun _ _ => none, poweron := some (.other "poweron boom"),
    getIPS := .ok [], attachCall := fun _ => none,
    readO := exEmptyUDOracle }

/-- Server data of the C7/C9 witnesses: no identifier yet, desired state
not `stopped`, a declared public IP. -/
def exCreateData : ServerData := { exData with id := "" }

/-- Witness for the Create error-shadowing theorem: with a failing
power-on and a failing attach, the attach error is the one returned. -/
theorem create_error_shadowing_witness :
    Event.call ProviderCall.getIPS ∈ (resourceScalewayServerCreate exCreateData c7oracle).2 ∧
    (resourceScalewayServerCreate exCreateData c7oracle).1.2 =
      some (.other (attachFailMsg "1.2.3.4")) := by
  have h := create_error_shadowing exCreateData c7oracle [] "srv-9" rfl rfl rfl
    (by decide)
  exact ⟨h.1 "1.2.3.4" rfl, h.2.1 "1.2.3.4" (.other (attachFailMsg "1.2.3.4")) rfl rfl⟩

theorem attachIP_notfound (pool : List IPRecord) (s addr : String)
    (c : String → Option ApiErr)
    (hf : pool.find? (fun q => decide (q.Address = addr)) = none) :
    attachIP (.ok pool) s addr c = (some (.other (attachFailMsg addr)), [.call .getIPS]) := by
  unfold attachIP
  simp only [hf]

theorem updateIPBlock_nomatch (old d : ServerData) (o : UpdateOracle)
    (pool : List IPRecord) (addr : String)
    (hch : old.public_ip ≠ d.public_ip) (hg : o.getIPS = .ok pool)
    (hok : getOkStr d.public_ip = some addr)
    (hf : pool.find? (fun q => decide (q.Address = addr)) = none) :
    updateIPBlock old d o = (none, [.call .getIPS]) := by
  unfold updateIPBlock
  rw [if_pos hch]
  simp only [hg, hok, hf]

theorem updateUDBlock_nochange (old d : ServerData) (o : UpdateOracle)
    (h : old.user_data = d.user_data) : updateUDBlock old d o = (none, []) := by
  unfold updateUDBlock
  simp [h]

/-- C9 (confirmed): when the declared public IP matches no pool entry,
server Create returns the attach-failure error with the identifier
already stored from the earlier server creation, whereas server Update
in the same situation issues no IP action at all and returns success
(given its final Read succeeds). -/
theorem missing_pool_entry_create_vs_update
    (d old du : ServerData) (o : CreateOracle) (ou : UpdateOracle)
    (vols : List VolumeSpec) (sid addr : String) (pool : List IPRecord)
    (hvol : (createVolumes o.postVolume d.volume 0).1 = .ok vols)
    (hps : o.postServer = .ok sid)
    (hud : (createUDPatches o.patchUserdata sid d.user_data).1 = none)
    (hstate : d.state ≠ "stopped")
    (haddr : getOkStr d.public_ip = some addr)
    (hips : o.getIPS = .ok pool)
    (hmiss : pool.find? (fun q => decide (q.Address = addr)) = none) :
    ((resourceScalewayServerCreate d o).1.2 = some (.other (attachFailMsg addr)) ∧
      (resourceScalewayServerCreate d o).1.1.id = sid) ∧
    (ou.patchServer = none → ou.getIPS = .ok pool →
      old.public_ip ≠ du.public_ip → getOkStr du.public_ip = some addr →
      old.user_data = du.user_data →
      (resourceScalewayServerRead du ou.readO).1.2 = none →
      ((resourceScalewayServerUpdate old du ou).1.2 = none ∧
        countIPCalls (resourceScalewayServerUpdate old du ou).2 = 0)) := by
  constructor
  · have hae : attachIP o.getIPS sid addr o.attachCall =
        (some (.other (attachFailMsg addr)), [.call .getIPS]) := by
      rw [hips]
      exact attachIP_notfound pool sid addr o.attachCall hmiss
    constructor
    · unfold resourceScalewayServerCreate serverCreateBody
      dsimp only
      simp only [hvol, hps, hud, haddr]
      rw [if_pos hstate]
      simp [hae]
    · unfold resourceScalewayServerCreate serverCreateBody
      dsimp only
      simp only [hvol, hps, hud, haddr]
      rw [if_pos hstate]
      simp [hae]
  · intro hops hogips hch hok hudch hread
    have hipeq := updateIPBlock_nomatch old du ou pool addr hch hogips hok hmiss
    have hudeq := updateUDBlock_nochange old du ou hudch
    have hrr0 := countIPCalls_zero_of_read _ (serverRead_mem du ou.readO)
    unfold resourceScalewayServerUpdate serverUpdateBody
    dsimp only
    simp only [hops, hipeq, hudeq]
    constructor
    · simp [hread]
    · simp only [List.cons_append, List.append_assoc, List.nil_append,
        countIPCalls_cons, countIPCalls_append, countIPCalls_nil, hrr0]
      simp [isIPAction]

/-- Update oracle of the C9 witness: an empty pool, so no entry carries
the desired address. -/
def c9updOracle : UpdateOracle :=
  { patchServer := none,
    getIPS := .ok [],
    attachCall := fun _ => none, detachCall := fun _ => none,
    getUserdatas := .ok [], getUserdata := fun _ => .ok "",
    deleteUD := fun _ => none, patchUD := fun _ _ => none,
    readO := exEmptyUDOracle }

/-- Witness for the missing-pool-entry contrast at concrete data: Create
errors with the identifier stored; Update succeeds with no IP action. -/
theorem missing_pool_entry_create_vs_update_witness :
    ((resourceScalewayServerCreate exCreateData c7oracle).1.2 =
        some (.other (attachFailMsg "1.2.3.4")) ∧
      (resourceScalewayServerCreate exCreateData c7oracle).1.1.id = "srv-9") ∧
    ((resourceScalewayServerUpdate c2old exData c9updOracle).1.2 = none ∧
      countIPCalls (resourceScalewayServerUpdate c2old exData c9updOracle).2 = 0) := by
  have h := missing_pool_entry_create_vs_update exCreateData c2old exData c7oracle c9updOracle
    [] "srv-9" "1.2.3.4" [] rfl rfl rfl (by decide) rfl rfl rfl
  exact ⟨h.1, h.2 rfl rfl (by decide) rfl rfl rfl⟩

theorem read_isCall (e : Event) (h : isReadEvent e = true) : isCallEvent e = true := by
  cases e <;> simp_all [isReadEvent, isCallEvent]

theorem uddelete_isCall (e : Event) (h : isUDDelete e = true) : isCallEvent e = true := by
  cases e <;> simp_all [isUDDelete, isCallEvent]

theorem udpatch_isCall (e : Event) (h : isUDPatch e = true) : isCallEvent e = true := by
  cases e <;> simp_all [isUDPatch, isCallEvent]

theorem ipaction_isCall (e : Event) (h : isIPAction e = true) : isCallEvent e = true := by
  cases e <;> simp_all [isIPAction, isCallEvent]

theorem createVolumes_mem (pv : Nat → Except ApiErr String) :
    ∀ vs i, ∀ e ∈ (createVolumes pv vs i).2, isCallEvent e = true := by
  intro vs
  induction vs with
  | nil => intro i e he; simp [createVolumes] at he
  | cons v rest ih =>
    intro i e he
    unfold createVolumes at he
    dsimp only at he
    split at he
    · split at he
      · simp at he; subst he; rfl
      · split at he
        · simp at he
          rcases he with he | he
          · subst he; rfl
          · exact ih (i + 1) e he
        · simp at he
          rcases he with he | he
          · subst he; rfl
          · exact ih (i + 1) e he
    · split at he
      · exact ih (i + 1) e he
      · exact ih (i + 1) e he

theorem createUDPatches_mem (pc : String → String → Option ApiErr) (id : String) :
    ∀ uds, ∀ e ∈ (createUDPatches pc id uds).2, isCallEvent e = true := by
  intro uds
  induction uds with
  | nil => intro e he; simp [createUDPatches] at he
  | cons p rest ih =>
    intro e he
    rcases p with ⟨k, v⟩
    unfold createUDPatches at he
    split at he
    · simp at he; subst he; rfl
    · simp at he
      rcases he with he | he
      · subst he; rfl
      · exact ih e he

theorem attachIP_mem (g : Except ApiErr (List IPRecord)) (s a : String)
    (c : String → Option ApiErr) :
    ∀ e ∈ (attachIP g s a c).2, isCallEvent e = true := by
  intro e he
  unfold attachIP at he
  split at he
  · simp at he; subst he; rfl
  · split at he
    · simp at he
      rcases he with he | he
      · subst he; rfl
      · subst he; rfl
    · simp at he; subst he; rfl

theorem serverCreateBody_calls (d : ServerData) (o : CreateOracle) :
    ∀ e ∈ (serverCreateBody d o).2, isCallEvent e = true := by
  intro e he
  unfold serverCreateBody at he
  dsimp only at he
  split at he
  · exact createVolumes_mem _ _ _ e he
  · split at he
    · simp at he
      rcases he with he | he
      · exact createVolumes_mem _ _ _ e he
      · subst he; rfl
    · split at he
      · simp at he
        rcases he with he | he | he
        · exact createVolumes_mem _ _ _ e he
        · subst he; rfl
        · exact createUDPatches_mem _ _ _ e he
      · split at he
        · split at he
          · split at he
            · simp at he
              rcases he with he | he | he | he | he
              · exact createVolumes_mem _ _ _ e he
              · subst he; rfl
              · exact createUDPatches_mem _ _ _ e he
              · subst he; rfl
              · exact attachIP_mem _ _ _ _ e he
            · split at he
              · simp at he
                rcases he with he | he | he | he | he
                · exact createVolumes_mem _ _ _ e he
                · subst he; rfl
                · exact createUDPatches_mem _ _ _ e he
                · subst he; rfl
                · exact attachIP_mem _ _ _ _ e he
              · simp at he
                rcases he with he | he | he | he | he | he
                · exact createVolumes_mem _ _ _ e he
                · subst he; rfl
                · exact createUDPatches_mem _ _ _ e he
                · subst he; rfl
                · exact attachIP_mem _ _ _ _ e he
                · exact read_isCall e (serverRead_mem _ _ e he)
          · split at he
            · simp at he
              rcases he with he | he | he | he
              · exact createVolumes_mem _ _ _ e he
              · subst he; rfl
              · exact createUDPatches_mem _ _ _ e he
              · subst he; rfl
            · simp at he
              rcases he with he | he | he | he | he
              · exact createVolumes_mem _ _ _ e he
              · subst he; rfl
              · exact createUDPatches_mem _ _ _ e he
              · subst he; rfl
              · exact read_isCall e (serverRead_mem _ _ e he)
        · simp at he
          rcases he with he | he | he | he
          · exact createVolumes_mem _ _ _ e he
          · subst he; rfl
          · exact createUDPatches_mem _ _ _ e he
          · exact read_isCall e (serverRead_mem _ _ e he)

theorem serverUpdateBody_calls (old d : ServerData) (o : UpdateOracle) :
    ∀ e ∈ (serverUpdateBody old d o).2, isCallEvent e = true := by
  intro e he
  have hipb : ∀ x ∈ (updateIPBlock old d o).2, isCallEvent x = true := by
    intro x hx
    rcases updateIPBlock_mem old d o x hx with h | h
    · exact read_isCall x h
    · exact ipaction_isCall x h
  have hudb : ∀ x ∈ (updateUDBlock old d o).2, isCallEvent x = true := by
    intro x hx
    rcases updateUDBlock_mem old d o x hx with h | h | h
    · exact read_isCall x h
    · exact uddelete_isCall x h
    · exact udpatch_isCall x h
  unfold serverUpdateBody at he
  dsimp only at he
  split at he
  · simp at he; subst he; rfl
  · split at he
    · simp at he
      rcases he with he | he
      · subst he; rfl
      · exact hipb e he
    · split at he
      · simp at he
        rcases he with he | he | he
        · subst he; rfl
        · exact hipb e he
        · exact hudb e he
      · simp at he
        rcases he with he | he | he | he
        · subst he; rfl
        · exact hipb e he
        · exact hudb e he
        · exact read_isCall e (serverRead_mem _ _ e he)

theorem serverDeleteBody_calls (d : ServerData) (o : DeleteOracle) :
    ∀ e ∈ (serverDeleteBody d o).2, isCallEvent e = true := by
  intro e he
  unfold serverDeleteBody at he
  split at he
  · simp at he; subst he; rfl
  · split at he
    · simp at he
      rcases he with he | he <;> (subst he; rfl)
    · split at he
      · simp at he
        rcases he with he | he <;> (subst he; rfl)
      · simp at he
        rcases he with he | he <;> (subst he; rfl)

theorem ipUpdateBody_calls (old d : IPData) (o : IPOracle) :
    ∀ e ∈ (ipUpdateBody old d o).2, isCallEvent e = true := by
  intro e he
  unfold ipUpdateBody at he
  dsimp only at he
  split at he
  · split at he
    · split at he
      · simp at he; subst he; rfl
      · simp at he
        rcases he with he | he
        · subst he; rfl
        · exact read_isCall e (ipRead_mem _ _ e he)
    · simp at he; subst he; rfl
  · exact read_isCall e (ipRead_mem _ _ e he)

theorem ipDeleteBody_calls (d : IPData) (o : IPOracle) :
    ∀ e ∈ (ipDeleteBody d o).2, isCallEvent e = true := by
  intro e he
  unfold ipDeleteBody at he
  split at he
  · simp at he; subst he; rfl
  · simp at he; subst he; rfl

theorem sectionCounts_calls_head :
    ∀ (tr rest : List Event), (∀ e ∈ tr, isCallEvent e = true) →
      ∀ acc, sectionCounts (tr ++ rest) true acc = sectionCounts rest true (acc + mutCount tr) := by
  intro tr
  induction tr with
  | nil => intro rest _ acc; simp [mutCount]
  | cons e tr ih =>
    intro rest h acc
    have he := h e (by simp)
    cases e with
    | lock => simp [isCallEvent] at he
    | unlock => simp [isCallEvent] at he
    | call c =>
      simp only [List.cons_append, sectionCounts, List.append_eq]
      rw [ih rest (fun x hx => h x (by simp [hx])) _]
      congr 1
      cases hm : isMutating c <;>
        simp [mutCount, List.filter_cons, isMutatingEvent, hm] <;> omega

theorem sectionCounts_wrap (body : List Event)
    (h : ∀ e ∈ body, isCallEvent e = true) :
    sectionCounts (.lock :: body ++ [.unlock]) false 0 = [mutCount body] := by
  have h1 : sectionCounts (Event.lock :: body ++ [Event.unlock]) false 0 =
      sectionCounts (body ++ [Event.unlock]) true 0 := rfl
  rw [h1, sectionCounts_calls_head body [Event.unlock] h 0]
  simp [sectionCounts]

theorem mutCount_wrap (body : List Event) :
    mutCount (.lock :: body ++ [.unlock]) = mutCount body := by
  simp [mutCount, List.filter_cons, List.filter_append, isMutatingEvent]

/-- C8 (amended): Create, Update and Delete of the server resource and
Update and Delete of the IP resource each hold the process-wide lock across
the entire invocation — the whole trace forms a single lock section
containing every mutating gateway call of the invocation, not one
section per call.  Only IP Create releases the lock right after its
`NewIP` allocation; it then delegates to the Update verb, which locks
again for its whole body. -/
theorem mutex_held_across_invocation
    (d old du : ServerData) (oc : CreateOracle) (ou : UpdateOracle) (od : DeleteOracle)
    (di oldi : IPData) (oi : IPOracle) :
    sectionCounts (resourceScalewayServerCreate d oc).2 false 0 =
      [mutCount (resourceScalewayServerCreate d oc).2] ∧
    sectionCounts (resourceScalewayServerUpdate old du ou).2 false 0 =
      [mutCount (resourceScalewayServerUpdate old du ou).2] ∧
    sectionCounts (resourceScalewayServerDelete d od).2 false 0 =
      [mutCount (resourceScalewayServerDelete d od).2] ∧
    sectionCounts (resourceScalewayIPUpdate oldi di oi).2 false 0 =
      [mutCount (resourceScalewayIPUpdate oldi di oi).2] ∧
    sectionCounts (resourceScalewayIPDelete di oi).2 false 0 =
      [mutCount (resourceScalewayIPDelete di oi).2] ∧
    (∀ e, oi.newIP = .error e →
      sectionCounts (resourceScalewayIPCreate oldi di oi).2 false 0 = [1]) ∧
    (∀ ip, oi.newIP = .ok ip →
      sectionCounts (resourceScalewayIPCreate oldi di oi).2 false 0 =
        1 :: sectionCounts (resourceScalewayIPUpdate oldi { di with id := ip.ID } oi).2 false 0) := by
  refine ⟨?_, ?_, ?_, ?_, ?_, ?_, ?_⟩
  · unfold resourceScalewayServerCreate
    dsimp only
    rw [sectionCounts_wrap _ (serverCreateBody_calls d oc), mutCount_wrap]
  · unfold resourceScalewayServerUpdate
    dsimp only
    rw [sectionCounts_wrap _ (serverUpdateBody_calls old du ou), mutCount_wrap]
  · unfold resourceScalewayServerDelete
    dsimp only
    rw [sectionCounts_wrap _ (serverDeleteBody_calls d od), mutCount_wrap]
  · unfold resourceScalewayIPUpdate
    dsimp only
    rw [sectionCounts_wrap _ (ipUpdateBody_calls oldi di oi), mutCount_wrap]
  · unfold resourceScalewayIPDelete
    dsimp only
    rw [sectionCounts_wrap _ (ipDeleteBody_calls di oi), mutCount_wrap]
  · intro e hnew
    unfold resourceScalewayIPCreate
    simp only [hnew]
    rfl
  · intro ip hnew
    unfold resourceScalewayIPCreate
    simp only [hnew]
    rfl

/-- C8 counterexample: a single server Create invocation holds the lock
for one whole section containing three mutating gateway calls
(`PostServer`, `PatchUserdata`, power-on), so the lock is not released
between individual mutating calls. -/
theorem mutex_not_per_call :
    sectionCounts (resourceScalewayServerCreate exCreateData c7oracle).2 false 0 = [3] ∧
    ¬ (∀ n ∈ sectionCounts (resourceScalewayServerCreate exCreateData c7oracle).2 false 0,
        n ≤ 1) := by
  constructor
  · rfl
  · decide

/-- IP oracle of the C8 witness whose allocation succeeds. -/
def c8ipOracle : IPOracle :=
  { newIP := .ok c2entry, getIP := .ok c2entry,
    attachOutcome := none, detachOutcome := none, deleteOutcome := none }

/-- Witness for the lock-section theorem at concrete data. -/
theorem mutex_held_across_invocation_witness :
    sectionCounts (resourceScalewayServerCreate exCreateData c7oracle).2 false 0 =
      [mutCount (resourceScalewayServerCreate exCreateData c7oracle).2] ∧
    sectionCounts (resourceScalewayIPCreate exIPData exIPData c8ipOracle).2 false 0 =
      1 :: sectionCounts
        (resourceScalewayIPUpdate exIPData { exIPData with id := c2entry.ID } c8ipOracle).2
        false 0 := by
  constructor
  · exact (mutex_held_across_invocation exCreateData exCreateData exCreateData c7oracle
      exIdemOracle c3oracle exIPData exIPData c8ipOracle).1
  · exact (mutex_held_across_invocation exCreateData exCreateData exCreateData c7oracle
      exIdemOracle c3oracle exIPData exIPData c8ipOracle).2.2.2.2.2.2 c2entry rfl

end Scaleway
